import Mathlib

/-!
Verification of the SCoRe-Forest + Preemptive RANSAC camera relocaliser core
(grove module, PreemptiveRansac_CUDA.cu) against its specification.

The CUDA kernels are embedded sequentially: a kernel dispatch becomes a pure
function over lists, the atomic-append idiom becomes a fold that writes at the
current counter position, and the (nondeterministic) completion order of
parallel slots becomes an explicit order parameter.  Device helpers declared in
PreemptiveRansac_Shared.h are not part of the provided sources; where a claim
depends on them, the corresponding definition carries a doc comment starting
with the words Modelled from the spec.
-/

namespace Grove

/-! ## Basic geometric data -/

/-- A 3-vector with rational coordinates (embedding of Vector3f). -/
structure Vec3 where
  x : ℚ
  y : ℚ
  z : ℚ
deriving DecidableEq

/-- Squared Euclidean distance between two points. -/
def sqDist (a b : Vec3) : ℚ :=
  (a.x - b.x) ^ 2 + (a.y - b.y) ^ 2 + (a.z - b.z) ^ 2

/-- Euclidean distance, as a real number. -/
noncomputable def dist3 (a b : Vec3) : ℝ :=
  Real.sqrt ((sqDist a b : ℚ) : ℝ)

/-! ## Pose candidates and the energy-scoring kernels

Embeds the kernels of PreemptiveRansac_CUDA.cu.  A pose candidate stores an
opaque pose of type P and an energy in a linear ordered field α (the float
arithmetic of the source is embedded as exact field arithmetic). -/

/-- Embedding of PoseCandidate: an opaque camera pose plus its energy. -/
structure PoseCandidate (P : Type) (α : Type) where
  cameraPose : P
  energy : α
deriving DecidableEq

variable {P : Type} {α : Type} [LinearOrderedField α]

/-- Embeds ck_preemptive_ransac_reset_candidate_energies: every candidate's
energy is set to zero before the accumulation pass. -/
def ck_preemptive_ransac_reset_candidate_energies
    (cs : List (PoseCandidate P α)) : List (PoseCandidate P α) :=
  cs.map fun c => { c with energy := 0 }

/-- Tree-ordered sum of the per-inlier costs of one candidate.  This embeds the
strided accumulation, warp shuffle reduction and atomicAdd of
ck_preemptive_ransac_compute_energies, which together add every inlier's cost
exactly once.  The per-inlier cost function itself
(preemptive_ransac_compute_candidate_energy, declared in
PreemptiveRansac_Shared.h, absent from the sources) is kept abstract as the
parameter cost. -/
def sumInlierCosts (cost : P → ℤ → α) (inlierRasterIndices : List ℤ) (pose : P) : α :=
  (inlierRasterIndices.map (cost pose)).sum

/-- Embeds the finalisation step of ck_preemptive_ransac_compute_energies
(thread 0 divides the accumulated energy by nbInliers).  The source divides
with no guard; the float division by zero is embedded as the none branch. -/
def finalizeEnergy (accum : α) (nbInliers : ℕ) : Option α :=
  if nbInliers = 0 then none else some (accum / (nbInliers : α))

/-- Embeds ck_preemptive_ransac_compute_energies over the whole candidate
array: for each candidate, accumulate the per-inlier costs on top of the
current energy, then divide by the number of inliers. -/
def ck_preemptive_ransac_compute_energies (cost : P → ℤ → α) (inliers : List ℤ) :
    List (PoseCandidate P α) → Option (List (PoseCandidate P α))
  | [] => some []
  | c :: cs =>
    match finalizeEnergy (c.energy + sumInlierCosts cost inliers c.cameraPose) inliers.length,
          ck_preemptive_ransac_compute_energies cost inliers cs with
    | some e, some rest => some ({ c with energy := e } :: rest)
    | _, _ => none

/-- Comparison used to sort candidates: ascending energy (the operator < of
PoseCandidate compares energies). -/
def energyLE (a b : PoseCandidate P α) : Prop :=
  a.energy ≤ b.energy

instance (a b : PoseCandidate P α) : Decidable (energyLE a b) := by
  unfold energyLE
  infer_instance

/-- Modelled from the spec and the thrust documentation: thrust sort reorders
the array into ascending order with respect to the comparison, and guarantees
nothing beyond that (in particular it is not documented to be stable).  Its
contract is therefore the relation: the output is a permutation of the input
and is sorted by ascending energy. -/
def thrustSortSpec (input output : List (PoseCandidate P α)) : Prop :=
  input.Perm output ∧ output.Sorted energyLE

/-- Embeds PreemptiveRansac_CUDA::compute_and_sort_energies: reset the
energies, run the accumulation kernel, then sort by ascending energy.  The
sort is relational because its contract leaves the order of equal-energy
candidates open. -/
def compute_and_sort_energies (cost : P → ℤ → α) (inliers : List ℤ)
    (cands output : List (PoseCandidate P α)) : Prop :=
  ∃ scored,
    ck_preemptive_ransac_compute_energies cost inliers
        (ck_preemptive_ransac_reset_candidate_energies cands) = some scored ∧
    thrustSortSpec scored output

/-- The candidate array with every energy replaced by the mean per-inlier cost
of its own pose (the intended result of the scoring phase). -/
def scoredCandidates (cost : P → ℤ → α) (inliers : List ℤ)
    (cands : List (PoseCandidate P α)) : List (PoseCandidate P α) :=
  cands.map fun c =>
    { c with energy := sumInlierCosts cost inliers c.cameraPose / (inliers.length : α) }

/-- The stable ascending-by-energy sort that the specification asserts
(insertion sort is stable: candidates of equal energy keep their original
relative order). -/
def stableEnergySort (l : List (PoseCandidate P α)) : List (PoseCandidate P α) :=
  List.insertionSort energyLE l

/-! ## Inlier sampling

Embeds ck_preemptive_ransac_sample_inliers and
PreemptiveRansac_CUDA::sample_inlier_candidates.  The keypoint and prediction
images are abstracted to the two per-raster-index facts the sampler reads:
keypoint validity and the number of modal clusters of the prediction. -/

/-- Keypoint and prediction images, read at a raster index. -/
structure SamplerImage where
  validKp : ℤ → Bool
  nbModes : ℤ → ℕ

/-- Modelled from the spec: the per-draw acceptance test of
preemptive_ransac_sample_inlier (declared in PreemptiveRansac_Shared.h, absent
from the sources): accept iff the keypoint is valid, its prediction has at
least one modal cluster and, in masked mode, the mask bit at that index is
still 0. -/
def acceptInlier (useMask : Bool) (img : SamplerImage) (mask : ℤ → Bool) (idx : ℤ) : Bool :=
  img.validKp idx && decide (0 < img.nbModes idx) && (!useMask || !(mask idx))

/-- Sampling state: the inlier index block (device array plus host and device
counters) and the W×H inlier mask. -/
structure InlierBlock where
  data : ℕ → ℤ
  dataSize : ℕ
  deviceCount : ℕ
  mask : ℤ → Bool

/-- One sampling attempt: on acceptance, grab the next free position of the
inlier array with the atomic counter and store the raster index there; in
masked mode the accepted index's mask bit is set. -/
def sampleInlierStep (useMask : Bool) (img : SamplerImage) (b : InlierBlock) (idx : ℤ) :
    InlierBlock :=
  if acceptInlier useMask img b.mask idx then
    { b with
      data := fun j => if j = b.deviceCount then idx else b.data j
      deviceCount := b.deviceCount + 1
      mask := if useMask then (fun j => if j = idx then true else b.mask j) else b.mask }
  else b

/-- Embeds ck_preemptive_ransac_sample_inliers: the dispatch over one batch of
draws, sequentialised in the (arbitrary) completion order of the attempts. -/
def ck_preemptive_ransac_sample_inliers (useMask : Bool) (img : SamplerImage)
    (b : InlierBlock) (draws : List ℤ) : InlierBlock :=
  draws.foldl (sampleInlierStep useMask img) b

/-- Embeds PreemptiveRansac_CUDA::sample_inlier_candidates: the device counter
is reset only when the host-side inlier list is empty, then the sampling kernel
runs over the batch, and finally the device counter is published as the new
host-side size. -/
def sample_inlier_candidates (useMask : Bool) (img : SamplerImage)
    (b : InlierBlock) (draws : List ℤ) : InlierBlock :=
  let b0 := if b.dataSize = 0 then { b with deviceCount := 0 } else b
  let b1 := ck_preemptive_ransac_sample_inliers useMask img b0 draws
  { b1 with dataSize := b1.deviceCount }

/-- Concrete image used by the sampler witnesses: every keypoint valid, one
modal cluster per prediction. -/
def witnessImg : SamplerImage :=
  { validKp := fun _ => true, nbModes := fun _ => 1 }

/-- Concrete starting block for the C6 witness: raster index 9 already
masked. -/
def witnessBlockC6 : InlierBlock :=
  { data := fun _ => 0, dataSize := 0, deviceCount := 0, mask := fun j => decide (j = 9) }

/-- Modelled from the spec: the per-frame sampling schedule of the preemptive
loop: the first sampling call of a frame runs un-masked, every subsequent call
runs masked (the schedule lives in PreemptiveRansac::estimate_pose, absent from
the sources). -/
def frameSamplingMaskFlags (nbCalls : ℕ) : List Bool :=
  (List.range nbCalls).map fun k => decide (k ≠ 0)

/-- Concrete starting block for the C10 witness: one inlier already stored. -/
def witnessBlockC10 : InlierBlock :=
  { data := fun _ => 7, dataSize := 1, deviceCount := 1, mask := fun _ => false }

/-! ## Candidate generation: the dispatch (claim C8) -/

/-- Embeds the emission part of ck_preemptive_ransac_generate_pose_candidates:
each slot k tries to generate one candidate (abstracted as gen k; none when the
slot exhausts its retry budget), and every successful slot grabs a unique index
with atomicAdd on the candidate counter and stores its candidate there.  The
completion order of the parallel slots is the explicit order parameter; the
published counter is the length of the emitted list. -/
def generateDispatch {C : Type} (gen : ℕ → Option C) (order : List ℕ) : List C :=
  order.foldl (fun acc k => match gen k with | some c => acc ++ [c] | none => acc) []

/-- Generation outcome of each slot for the C8 witness: even slots succeed. -/
def witnessGen : ℕ → Option ℕ :=
  fun k => if k % 2 = 0 then some (10 * k) else none

/-! ## Candidate generation: geometric feasibility filters (claim C3) -/

/-- A candidate's three chosen correspondences: camera-space keypoint
positions, selected scene-space mode means, and the sampled keypoint raster
indices. -/
structure CorrTriple where
  xcam : Fin 3 → Vec3
  modeMu : Fin 3 → Vec3
  kpIdx : Fin 3 → ℤ

/-- Modelled from the spec: the minimum-separation test on the scene-space
triple: every pair of distinct chosen mode means is at squared distance at
least d_min². -/
def minSepOK (dminSq : ℚ) (t : CorrTriple) : Prop :=
  ∀ i j : Fin 3, i ≠ j → dminSq ≤ sqDist (t.modeMu i) (t.modeMu j)

/-- Modelled from the spec: the rigid-transform consistency test: for every
pair, the scene-space distance between the chosen mode means differs from the
camera-space distance between the keypoints by at most τ_t. -/
def rigidOK (tau : ℚ) (t : CorrTriple) : Prop :=
  ∀ i j : Fin 3,
    |dist3 (t.modeMu i) (t.modeMu j) - dist3 (t.xcam i) (t.xcam j)| ≤ (tau : ℝ)

/-- Modelled from the spec: a generation attempt succeeds iff its three
sampled keypoints are valid with non-empty predictions and the two geometric
tests pass whenever their flags are enabled
(preemptive_ransac_generate_candidate is declared in
PreemptiveRansac_Shared.h, absent from the sources). -/
def attemptSucceeds (img : SamplerImage) (checkMin checkRigid : Bool)
    (dminSq tau : ℚ) (t : CorrTriple) : Prop :=
  (∀ i : Fin 3, img.validKp (t.kpIdx i) = true ∧ 0 < img.nbModes (t.kpIdx i)) ∧
  (checkMin = true → minSepOK dminSq t) ∧
  (checkRigid = true → rigidOK tau t)

/-- Modelled from the spec: the per-slot retry loop emits the first successful
attempt of the slot's proposal stream (one proposal per retry, the stream
bounded by the retry budget). -/
def generatesCandidate (img : SamplerImage) (checkMin checkRigid : Bool)
    (dminSq tau : ℚ) (proposals : List CorrTriple) (t : CorrTriple) : Prop :=
  ∃ n : ℕ, proposals.get? n = some t ∧
    attemptSucceeds img checkMin checkRigid dminSq tau t ∧
    ∀ m, m < n → ∀ u, proposals.get? m = some u →
      ¬ attemptSucceeds img checkMin checkRigid dminSq tau u

/-- Concrete correspondence triple for the C3 witness: the scene-space means
are the camera-space points translated by (2, 3, 4), an exact isometry. -/
def witnessTriple : CorrTriple :=
  { xcam := fun i =>
      if i.val = 0 then ⟨0, 0, 1⟩ else if i.val = 1 then ⟨1, 0, 1⟩ else ⟨0, 1, 1⟩
    modeMu := fun i =>
      if i.val = 0 then ⟨2, 3, 5⟩ else if i.val = 1 then ⟨3, 3, 5⟩ else ⟨2, 4, 5⟩
    kpIdx := fun i => (i.val : ℤ) }

/-! ## The relocaliser pipeline (claims C4, C5) -/

/-- The relocalisation failure kinds of the external interface. -/
inductive RelocFail
  | emptyCandidatePool
  | timeout
  | cancelled
deriving DecidableEq

/-- Modelled from the spec: the validity part of one generation attempt: each
of the three sampled keypoints must be valid and its prediction must hold at
least one modal cluster. -/
def sampleChecksB (img : SamplerImage) (t : CorrTriple) : Bool :=
  (List.finRange 3).all fun i =>
    img.validKp (t.kpIdx i) && decide (0 < img.nbModes (t.kpIdx i))

/-- Modelled from the spec: the executable per-slot retry loop: scan the
proposal stream for the first admissible attempt; a slot whose stream is
exhausted produces no candidate. -/
def generateCandidateLoop (admissible : CorrTriple → Bool) :
    List CorrTriple → Option CorrTriple
  | [] => none
  | t :: rest => if admissible t then some t else generateCandidateLoop admissible rest

/-- Modelled from the spec: relocalise fails with EmptyCandidatePool when the
candidate pool is empty; otherwise the non-empty pool is handed to the
preemptive loop (abstracted here as returning the pool itself). -/
def relocaliseFromPool (pool : List CorrTriple) : Except RelocFail (List CorrTriple) :=
  match pool with
  | [] => Except.error RelocFail.emptyCandidatePool
  | c :: cs => Except.ok (c :: cs)

/-- The state of one per-slot random generator, determined by the seed and the
slot index. -/
abbrev RNGState := ℕ × ℕ

/-- Embeds ck_preemptive_ransac_init_random_generators: generator idx is reset
to the state determined by (seed, idx). -/
def ck_preemptive_ransac_init_random_generators (nbStates seed : ℕ) : List RNGState :=
  (List.range nbStates).map fun idx => (seed, idx)

/-- Modelled from the spec: a full relocaliser run on one frame: the per-slot
RNGs are seeded from (seed, slot) as in the source's init kernel; each slot
derives its proposal stream deterministically from its RNG state and runs the
retry loop; the dispatch appends the successful slots in the given completion
order; an empty pool fails with EmptyCandidatePool. -/
def runRelocaliser (proposalsOf : RNGState → List CorrTriple) (img : SamplerImage)
    (geomTest : CorrTriple → Bool) (seed M : ℕ) (order : List ℕ) :
    Except RelocFail (List CorrTriple) :=
  let rngs := ck_preemptive_ransac_init_random_generators M seed
  relocaliseFromPool (generateDispatch
    (fun k => generateCandidateLoop (fun t => sampleChecksB img t && geomTest t)
      (proposalsOf (rngs.getD k (0, 0)))) order)

/-- Modelled from the spec: an observation of the relocaliser under the
single-threaded backend with tree-ordered reductions: the slots complete in
serial order, so an observed outcome is the serial run's outcome. -/
def serialObservation (proposalsOf : RNGState → List CorrTriple) (img : SamplerImage)
    (geomTest : CorrTriple → Bool) (seed M : ℕ)
    (out : Except RelocFail (List CorrTriple)) : Prop :=
  out = runRelocaliser proposalsOf img geomTest seed M (List.range M)

/-- Concrete image whose predictions are all empty. -/
def emptyPredImg : SamplerImage :=
  { validKp := fun _ => true, nbModes := fun _ => 0 }

/-! ## Lemmas and theorems -/

/-! ### Helper lemmas for the scoring pipeline -/

/-- With a non-empty inlier set the accumulation kernel never fails and each
candidate's energy becomes (previous energy + cost sum) / number of inliers. -/
lemma computeEnergies_eq_map (cost : P → ℤ → α) (inliers : List ℤ)
    (hne : inliers ≠ []) (cs : List (PoseCandidate P α)) :
    ck_preemptive_ransac_compute_energies cost inliers cs =
      some (cs.map fun c =>
        { c with energy := (c.energy + sumInlierCosts cost inliers c.cameraPose) /
            (inliers.length : α) }) := by
  have hlen : inliers.length ≠ 0 := by
    simpa [List.length_eq_zero] using hne
  induction cs with
  | nil => simp [ck_preemptive_ransac_compute_energies]
  | cons c cs ih =>
    simp [ck_preemptive_ransac_compute_energies, ih, finalizeEnergy, hlen]

/-- Running reset then accumulate on a non-empty inlier set produces exactly
the scored candidate array. -/
lemma reset_then_compute (cost : P → ℤ → α) (inliers : List ℤ)
    (hne : inliers ≠ []) (cands : List (PoseCandidate P α)) :
    ck_preemptive_ransac_compute_energies cost inliers
        (ck_preemptive_ransac_reset_candidate_energies cands) =
      some (scoredCandidates cost inliers cands) := by
  rw [computeEnergies_eq_map cost inliers hne]
  simp [ck_preemptive_ransac_reset_candidate_energies, scoredCandidates]

/-! ### Claims C1, C2, C9 -/

/-- C1: for every candidate scored in a round and every non-empty inlier set,
the energy computed by the scoring pipeline (reset to zero, accumulate, divide)
equals the arithmetic mean, over exactly the current inlier list, of the
per-inlier costs of that candidate's pose — for any per-inlier cost function,
hence in particular for the negative-log mixture density of the spec. -/
theorem C1_energy_is_mean_of_inlier_costs (cost : P → ℤ → α) (inliers : List ℤ)
    (cands output : List (PoseCandidate P α)) (hne : inliers ≠ [])
    (hrel : compute_and_sort_energies cost inliers cands output) :
    ∀ c ∈ output, c.energy =
      sumInlierCosts cost inliers c.cameraPose / (inliers.length : α) := by
  obtain ⟨scored, hscored, hperm, _⟩ := hrel
  rw [reset_then_compute cost inliers hne] at hscored
  have hsc : scored = scoredCandidates cost inliers cands :=
    (Option.some_inj.mp hscored).symm
  intro c hc
  have hc' : c ∈ scoredCandidates cost inliers cands := by
    rw [← hsc]
    exact hperm.mem_iff.mpr hc
  rw [scoredCandidates] at hc'
  obtain ⟨c₀, _, rfl⟩ := List.mem_map.mp hc'
  simp

/-- C1 witness: a concrete run with two inliers and one candidate. -/
theorem C1_witness :
    (([2, 4] : List ℤ) ≠ []) ∧
      (⟨0, 3⟩ : PoseCandidate ℕ ℚ).energy =
        sumInlierCosts (fun _ i => (i : ℚ)) [2, 4] 0 / ((([2, 4] : List ℤ).length : ℕ) : ℚ) := by
  constructor
  · decide
  · refine C1_energy_is_mean_of_inlier_costs (fun _ i => (i : ℚ)) [2, 4]
      [⟨0, 37⟩] [⟨0, 3⟩] (by decide) ?_ ⟨0, 3⟩ (by simp)
    refine ⟨[⟨0, 3⟩], ?_, List.Perm.refl _, List.sorted_singleton _⟩
    norm_num [ck_preemptive_ransac_compute_energies,
      ck_preemptive_ransac_reset_candidate_energies, finalizeEnergy, sumInlierCosts]

/-- C2 counterexample: the claim asserts that the post-scoring candidate array
is the stable ascending sort (ties in original-index order).  The sort the code
performs is thrust sort, whose contract only guarantees an ascending
permutation: with two candidates of equal energy the swapped output is a
legitimate result of compute_and_sort_energies, yet it differs from the stable
sort of the scored array. -/
theorem C2_counterexample :
    compute_and_sort_energies (fun _ _ => (1 : ℚ)) [2, 4]
        [(⟨0, 5⟩ : PoseCandidate ℕ ℚ), ⟨1, 7⟩] [⟨1, 1⟩, ⟨0, 1⟩] ∧
      [(⟨1, 1⟩ : PoseCandidate ℕ ℚ), ⟨0, 1⟩] ≠
        stableEnergySort [⟨0, 1⟩, ⟨1, 1⟩] := by
  constructor
  · refine ⟨[⟨0, 1⟩, ⟨1, 1⟩], ?_, List.Perm.swap (⟨1, 1⟩ : PoseCandidate ℕ ℚ) ⟨0, 1⟩ [], ?_⟩
    · norm_num [ck_preemptive_ransac_compute_energies,
        ck_preemptive_ransac_reset_candidate_energies, finalizeEnergy, sumInlierCosts]
    · simp [List.sorted_cons, energyLE]
  · simp [stableEnergySort, List.insertionSort, List.orderedInsert, energyLE,
      PoseCandidate.mk.injEq]

/-- C2 (amended): after the scoring phase of a round with a non-empty inlier
set, the surviving candidate array is sorted by energy in ascending order and
is a permutation of the scored candidates; the relative order of equal-energy
candidates is unspecified (thrust sort is not guaranteed stable). -/
theorem C2_sorted_permutation (cost : P → ℤ → α) (inliers : List ℤ)
    (cands output : List (PoseCandidate P α)) (hne : inliers ≠ [])
    (hrel : compute_and_sort_energies cost inliers cands output) :
    output.Sorted energyLE ∧ output.Perm (scoredCandidates cost inliers cands) := by
  obtain ⟨scored, hscored, hperm, hsorted⟩ := hrel
  rw [reset_then_compute cost inliers hne] at hscored
  have hsc : scored = scoredCandidates cost inliers cands :=
    (Option.some_inj.mp hscored).symm
  rw [hsc] at hperm
  exact ⟨hsorted, hperm.symm⟩

/-- C2 witness: a concrete run of the amended statement. -/
theorem C2_witness :
    (([2, 4] : List ℤ) ≠ []) ∧
      [(⟨0, 3⟩ : PoseCandidate ℕ ℚ)].Sorted energyLE ∧
      [(⟨0, 3⟩ : PoseCandidate ℕ ℚ)].Perm
        (scoredCandidates (fun _ i => (i : ℚ)) [2, 4] [⟨0, 37⟩]) := by
  refine ⟨by decide, C2_sorted_permutation (fun _ i => (i : ℚ)) [2, 4]
    [⟨0, 37⟩] [⟨0, 3⟩] (by decide) ?_⟩
  refine ⟨[⟨0, 3⟩], ?_, List.Perm.refl _, List.sorted_singleton _⟩
  norm_num [ck_preemptive_ransac_compute_energies,
    ck_preemptive_ransac_reset_candidate_energies, finalizeEnergy, sumInlierCosts]

/-- C9: the energy finalisation step divides the accumulated sum by the number
of inliers with no guard; under the precondition of at least one inlier the
division is well-defined (the division-by-zero branch is unreachable) and the
result is the accumulated sum over the count.  With zero inliers the
finalisation takes the failure branch, so no such guarantee holds there. -/
theorem C9_finalize_no_div_by_zero (accum : α) (n : ℕ) (h : 1 ≤ n) :
    finalizeEnergy accum n = some (accum / (n : α)) := by
  have hn : n ≠ 0 := Nat.one_le_iff_ne_zero.mp h
  simp [finalizeEnergy, hn]

/-- C9 witness: finalisation at three inliers. -/
theorem C9_witness :
    1 ≤ 3 ∧ finalizeEnergy (5 : ℚ) 3 = some ((5 : ℚ) / ((3 : ℕ) : ℚ)) :=
  ⟨by decide, C9_finalize_no_div_by_zero 5 3 (by decide)⟩

/-- During a sampling dispatch the device counter never decreases and the
entries below the starting counter are never overwritten. -/
lemma sample_fold_preserves (useMask : Bool) (img : SamplerImage) :
    ∀ (draws : List ℤ) (b : InlierBlock),
      b.deviceCount ≤ (ck_preemptive_ransac_sample_inliers useMask img b draws).deviceCount ∧
      ∀ j, j < b.deviceCount →
        (ck_preemptive_ransac_sample_inliers useMask img b draws).data j = b.data j := by
  intro draws
  induction draws with
  | nil => exact fun b => ⟨le_refl _, fun _ _ => rfl⟩
  | cons d rest ih =>
    intro b
    have hfold : ck_preemptive_ransac_sample_inliers useMask img b (d :: rest) =
        ck_preemptive_ransac_sample_inliers useMask img (sampleInlierStep useMask img b d) rest :=
      rfl
    rw [hfold]
    by_cases h : acceptInlier useMask img b.mask d = true
    · have hstep : sampleInlierStep useMask img b d =
          { b with
            data := fun j => if j = b.deviceCount then d else b.data j
            deviceCount := b.deviceCount + 1
            mask := if useMask then (fun j => if j = d then true else b.mask j) else b.mask } := by
        simp [sampleInlierStep, h]
      rw [hstep]
      obtain ⟨hle, hdata⟩ := ih
        { b with
          data := fun j => if j = b.deviceCount then d else b.data j
          deviceCount := b.deviceCount + 1
          mask := if useMask then (fun j => if j = d then true else b.mask j) else b.mask }
      constructor
      · exact le_trans (Nat.le_succ _) hle
      · intro j hj
        rw [hdata j (Nat.lt_succ_of_lt hj)]
        exact if_neg (Nat.ne_of_lt hj)
    · have hstep : sampleInlierStep useMask img b d = b := by
        simp [sampleInlierStep, h]
      rw [hstep]
      exact ih b

/-- During a masked dispatch a set mask bit stays set, and no index whose mask
bit is set at the start of the dispatch is ever written into the freshly
appended region of the inlier array (each acceptance requires the mask bit to
be 0 immediately before it and sets the bit). -/
lemma masked_fold_no_resample (img : SamplerImage) (i : ℤ) :
    ∀ (draws : List ℤ) (b : InlierBlock), b.mask i = true →
      (ck_preemptive_ransac_sample_inliers true img b draws).mask i = true ∧
      ∀ j, b.deviceCount ≤ j →
        j < (ck_preemptive_ransac_sample_inliers true img b draws).deviceCount →
        (ck_preemptive_ransac_sample_inliers true img b draws).data j ≠ i := by
  intro draws
  induction draws with
  | nil =>
    intro b hb
    exact ⟨hb, fun j h1 h2 => absurd h2 (Nat.not_lt.mpr h1)⟩
  | cons d rest ih =>
    intro b hb
    have hfold : ck_preemptive_ransac_sample_inliers true img b (d :: rest) =
        ck_preemptive_ransac_sample_inliers true img (sampleInlierStep true img b d) rest :=
      rfl
    rw [hfold]
    by_cases h : acceptInlier true img b.mask d = true
    · have hmaskd : b.mask d = false := by
        have h' := h
        simp [acceptInlier] at h'
        exact h'.2
      have hdi : d ≠ i := by
        intro e
        rw [e, hb] at hmaskd
        exact Bool.noConfusion hmaskd
      have hstep : sampleInlierStep true img b d =
          { b with
            data := fun j => if j = b.deviceCount then d else b.data j
            deviceCount := b.deviceCount + 1
            mask := fun j => if j = d then true else b.mask j } := by
        simp [sampleInlierStep, h]
      rw [hstep]
      have hmask' : (fun j => if j = d then true else b.mask j) i = true := by
        show (if i = d then true else b.mask i) = true
        rw [if_neg (Ne.symm hdi)]
        exact hb
      obtain ⟨hm, hreg⟩ := ih
        { b with
          data := fun j => if j = b.deviceCount then d else b.data j
          deviceCount := b.deviceCount + 1
          mask := fun j => if j = d then true else b.mask j } hmask'
      refine ⟨hm, ?_⟩
      intro j hj1 hj2
      rcases Nat.lt_or_ge j (b.deviceCount + 1) with hcase | hcase
      · have hj : j = b.deviceCount := Nat.le_antisymm (Nat.lt_succ_iff.mp hcase) hj1

        have hdata := (sample_fold_preserves true img rest
          { b with
            data := fun j => if j = b.deviceCount then d else b.data j
            deviceCount := b.deviceCount + 1
            mask := fun j => if j = d then true else b.mask j }).2 j hcase
        rw [hdata, hj]
        simpa using hdi
      · exact hreg j hcase hj2
    · have hstep : sampleInlierStep true img b d = b := by
        simp [sampleInlierStep, h]
      rw [hstep]
      exact ih b hb

/-! ### Claims C6, C7, C10 -/

/-- C6: within a frame, once a keypoint raster index has been marked in the
inlier mask, no later masked sampling draw returns it again: across any masked
dispatch the mask bit stays set and every freshly appended inlier index differs
from the marked index, because a masked draw is accepted only when the mask bit
of the drawn index is 0 immediately before acceptance. -/
theorem C6_mask_monotone_no_resample (img : SamplerImage) (b : InlierBlock)
    (draws : List ℤ) (i : ℤ) (hmask : b.mask i = true) :
    (ck_preemptive_ransac_sample_inliers true img b draws).mask i = true ∧
    ∀ j, b.deviceCount ≤ j →
      j < (ck_preemptive_ransac_sample_inliers true img b draws).deviceCount →
      (ck_preemptive_ransac_sample_inliers true img b draws).data j ≠ i :=
  masked_fold_no_resample img i draws b hmask

/-- C6 witness: drawing the masked index 9 and then 5, the mask bit of 9 stays
set and the accepted entry differs from 9. -/
theorem C6_witness :
    witnessBlockC6.mask 9 = true ∧
      (ck_preemptive_ransac_sample_inliers true witnessImg witnessBlockC6 [9, 5]).mask 9 = true ∧
      (ck_preemptive_ransac_sample_inliers true witnessImg witnessBlockC6 [9, 5]).data 0 ≠ 9 := by
  have h := C6_mask_monotone_no_resample witnessImg witnessBlockC6 [9, 5] 9 (by decide)
  exact ⟨by decide, h.1, h.2 0 (Nat.zero_le _) (by decide)⟩

/-- C7: a sampling draw is accepted iff the keypoint at the drawn raster index
is valid, its prediction holds at least one modal cluster and, in masked mode,
the mask bit at that index is 0; and in the per-frame schedule the first
sampling call is un-masked while every subsequent call is masked. -/
theorem C7_accept_iff_and_schedule (useMask : Bool) (img : SamplerImage)
    (mask : ℤ → Bool) (idx : ℤ) (n k : ℕ) (hk : k < n) :
    (acceptInlier useMask img mask idx = true ↔
      (img.validKp idx = true ∧ 0 < img.nbModes idx ∧
        (useMask = true → mask idx = false))) ∧
    (frameSamplingMaskFlags n).getD k false = decide (k ≠ 0) := by
  constructor
  · cases useMask <;> simp [acceptInlier, and_assoc]
  · simp [frameSamplingMaskFlags, List.getD_eq_getElem?_getD, List.getElem?_map,
      List.getElem?_range hk]

/-- C7 witness: a masked draw at index 3 in the concrete image, and call 2 of a
4-call schedule. -/
theorem C7_witness :
    2 < 4 ∧
      ((acceptInlier true witnessImg (fun _ => false) 3 = true ↔
        (witnessImg.validKp 3 = true ∧ 0 < witnessImg.nbModes 3 ∧
          (true = true → (fun _ : ℤ => false) 3 = false))) ∧
      (frameSamplingMaskFlags 4).getD 2 false = decide (2 ≠ 0)) :=
  ⟨by decide, C7_accept_iff_and_schedule true witnessImg (fun _ => false) 3 4 2 (by decide)⟩

/-- C10: when the host and device inlier counters are in sync, a sampling call
leaves every previously stored inlier index unchanged and only appends after
them, so the inlier list grows monotonically across rounds (the device counter
is reset only when the host-side list is empty, in which case nothing can be
overwritten either). -/
theorem C10_inlier_list_append_only (useMask : Bool) (img : SamplerImage)
    (b : InlierBlock) (draws : List ℤ) (hsync : b.deviceCount = b.dataSize) :
    (∀ j, j < b.dataSize →
      (sample_inlier_candidates useMask img b draws).data j = b.data j) ∧
    b.dataSize ≤ (sample_inlier_candidates useMask img b draws).dataSize := by
  unfold sample_inlier_candidates
  by_cases h0 : b.dataSize = 0
  · simp only [h0, if_pos rfl]
    exact ⟨fun j hj => absurd hj (Nat.not_lt_zero j), Nat.zero_le _⟩
  · simp only [if_neg h0]
    obtain ⟨hle, hdata⟩ := sample_fold_preserves useMask img draws b
    constructor
    · intro j hj
      exact hdata j (by rw [hsync]; exact hj)
    · calc b.dataSize = b.deviceCount := hsync.symm
        _ ≤ _ := hle

/-- C10 witness: a masked call over one draw preserves the stored inlier and
does not shrink the list. -/
theorem C10_witness :
    witnessBlockC10.deviceCount = witnessBlockC10.dataSize ∧
      (sample_inlier_candidates true witnessImg witnessBlockC10 [5]).data 0 =
        witnessBlockC10.data 0 ∧
      witnessBlockC10.dataSize ≤
        (sample_inlier_candidates true witnessImg witnessBlockC10 [5]).dataSize := by
  have h := C10_inlier_list_append_only true witnessImg witnessBlockC10 [5] rfl
  exact ⟨rfl, h.1 0 (by decide), h.2⟩

/-- The dispatch fold, started from any accumulator, appends exactly the
successful slots in order. -/
lemma generateDispatch_foldl {C : Type} (gen : ℕ → Option C) :
    ∀ (order : List ℕ) (acc : List C),
      order.foldl (fun acc k => match gen k with | some c => acc ++ [c] | none => acc) acc =
        acc ++ order.filterMap gen := by
  intro order
  induction order with
  | nil => intro acc; simp
  | cons k rest ih =>
    intro acc
    cases hk : gen k with
    | none => simp [List.foldl_cons, hk, List.filterMap_cons_none hk, ih]
    | some c => simp [List.foldl_cons, hk, List.filterMap_cons_some hk, ih]

/-- The dispatch emits exactly the successful slots, in completion order. -/
lemma generateDispatch_eq_filterMap {C : Type} (gen : ℕ → Option C) (order : List ℕ) :
    generateDispatch gen order = order.filterMap gen := by
  simpa [generateDispatch] using generateDispatch_foldl gen order []

/-- Counting successes through filterMap. -/
lemma length_filterMap_eq_countP {C : Type} (gen : ℕ → Option C) :
    ∀ l : List ℕ, (l.filterMap gen).length = l.countP fun k => (gen k).isSome := by
  intro l
  induction l with
  | nil => simp
  | cons k rest ih =>
    cases hk : gen k with
    | none => simp [List.filterMap_cons_none hk, List.countP_cons, hk, ih]
    | some c => simp [List.filterMap_cons_some hk, List.countP_cons, hk, ih]

/-- C8: after a generation dispatch completed in any order of its parallel
slots, the candidate array holds a dense prefix of valid candidates: the
published counter equals the number of slots whose generation succeeded, every
entry below the counter is the successfully generated candidate of some slot,
and there is no entry at or above the counter. -/
theorem C8_dense_prefix_of_valid_candidates {C : Type} (gen : ℕ → Option C)
    (M : ℕ) (order : List ℕ) (horder : order.Perm (List.range M)) :
    (generateDispatch gen order).length =
      ((List.range M).filter fun k => (gen k).isSome).length ∧
    (∀ c ∈ generateDispatch gen order, ∃ k, k < M ∧ gen k = some c) ∧
    ∀ i, (generateDispatch gen order).length ≤ i →
      (generateDispatch gen order).get? i = none := by
  rw [generateDispatch_eq_filterMap]
  refine ⟨?_, ?_, ?_⟩
  · rw [length_filterMap_eq_countP, horder.countP_eq, List.countP_eq_length_filter]
  · intro c hc
    obtain ⟨k, hk, hgk⟩ := List.mem_filterMap.mp hc
    exact ⟨k, List.mem_range.mp (horder.mem_iff.mp hk), hgk⟩
  · intro i hi
    exact List.get?_eq_none.mpr hi

/-- C8 witness: four slots completing in the order 2, 1, 0, 3. -/
theorem C8_witness :
    ([2, 1, 0, 3] : List ℕ).Perm (List.range 4) ∧
      (generateDispatch witnessGen [2, 1, 0, 3]).length =
        ((List.range 4).filter fun k => (witnessGen k).isSome).length ∧
      (∃ k, k < 4 ∧ witnessGen k = some 20) ∧
      (generateDispatch witnessGen [2, 1, 0, 3]).get? 2 = none := by
  have hperm : ([2, 1, 0, 3] : List ℕ).Perm (List.range 4) := by decide
  have h := C8_dense_prefix_of_valid_candidates witnessGen 4 [2, 1, 0, 3] hperm
  exact ⟨hperm, h.1, h.2.1 20 (by decide), h.2.2 2 (by decide)⟩

/-- C3: every candidate emitted by the candidate generator satisfies, when the
respective flags are enabled, the minimum-separation test on its three chosen
scene-space modes and the rigid-transform consistency test pairing them with
its camera-space points. -/
theorem C3_emitted_candidate_passes_filters (img : SamplerImage)
    (checkMin checkRigid : Bool) (dminSq tau : ℚ) (proposals : List CorrTriple)
    (t : CorrTriple)
    (hgen : generatesCandidate img checkMin checkRigid dminSq tau proposals t) :
    (checkMin = true → minSepOK dminSq t) ∧
    (checkRigid = true → rigidOK tau t) := by
  obtain ⟨n, -, hsucc, -⟩ := hgen
  exact ⟨hsucc.2.1, hsucc.2.2⟩

/-- C3 witness: with both flags enabled, d_min² = 9/100 and τ_t = 1/20, the
concrete triple is emitted and passes both tests. -/
theorem C3_witness :
    generatesCandidate witnessImg true true (9 / 100) (1 / 20) [witnessTriple] witnessTriple ∧
      minSepOK (9 / 100) witnessTriple ∧ rigidOK (1 / 20) witnessTriple := by
  have hsq : ∀ i j : Fin 3, sqDist (witnessTriple.modeMu i) (witnessTriple.modeMu j) =
      sqDist (witnessTriple.xcam i) (witnessTriple.xcam j) := by
    intro i j
    fin_cases i <;> fin_cases j <;> norm_num [witnessTriple, sqDist]
  have hmin : minSepOK (9 / 100) witnessTriple := by
    intro i j hij
    fin_cases i <;> fin_cases j <;>
      simp_all [witnessTriple, sqDist] <;> norm_num
  have hrigid : rigidOK (1 / 20) witnessTriple := by
    intro i j
    rw [dist3, dist3, hsq i j, sub_self, abs_zero]
    norm_num
  have hsucc : attemptSucceeds witnessImg true true (9 / 100) (1 / 20) witnessTriple :=
    ⟨fun _ => ⟨rfl, Nat.one_pos⟩, fun _ => hmin, fun _ => hrigid⟩
  have hgen : generatesCandidate witnessImg true true (9 / 100) (1 / 20)
      [witnessTriple] witnessTriple :=
    ⟨0, rfl, hsucc, fun m hm _ _ => absurd hm (Nat.not_lt_zero m)⟩
  have h := C3_emitted_candidate_passes_filters witnessImg true true (9 / 100) (1 / 20)
    [witnessTriple] witnessTriple hgen
  exact ⟨hgen, h.1 rfl, h.2 rfl⟩

/-- C4: with the RNG seed fixed, tree-ordered reductions and the
single-threaded backend, any two observed runs of the relocaliser on identical
inputs produce identical outcomes. -/
theorem C4_fixed_seed_serial_runs_identical (proposalsOf : RNGState → List CorrTriple)
    (img : SamplerImage) (geomTest : CorrTriple → Bool) (seed M : ℕ)
    (out1 out2 : Except RelocFail (List CorrTriple))
    (h1 : serialObservation proposalsOf img geomTest seed M out1)
    (h2 : serialObservation proposalsOf img geomTest seed M out2) :
    out1 = out2 :=
  h1.trans h2.symm

/-- C4 witness: two concrete serial runs with seed 42 and two slots. -/
theorem C4_witness :
    serialObservation (fun _ => []) witnessImg (fun _ => false) 42 2
      (Except.error RelocFail.emptyCandidatePool) ∧
    serialObservation (fun _ => []) witnessImg (fun _ => false) 42 2
      (Except.error RelocFail.emptyCandidatePool) ∧
    (Except.error RelocFail.emptyCandidatePool :
        Except RelocFail (List CorrTriple)) =
      Except.error RelocFail.emptyCandidatePool := by
  have h : serialObservation (fun _ => []) witnessImg (fun _ => false) 42 2
      (Except.error RelocFail.emptyCandidatePool) := rfl
  exact ⟨h, h, C4_fixed_seed_serial_runs_identical (fun _ => []) witnessImg
    (fun _ => false) 42 2 _ _ h h⟩

/-- C5: when every keypoint's prediction is empty, every generation attempt of
every slot is rejected, the candidate pool stays empty and the relocaliser
returns the failure EmptyCandidatePool for the frame rather than any pose. -/
theorem C5_empty_predictions_give_empty_pool (proposalsOf : RNGState → List CorrTriple)
    (img : SamplerImage) (geomTest : CorrTriple → Bool) (seed M : ℕ) (order : List ℕ)
    (hempty : ∀ idx, img.nbModes idx = 0) :
    runRelocaliser proposalsOf img geomTest seed M order =
      Except.error RelocFail.emptyCandidatePool := by
  have hchecks : ∀ t, sampleChecksB img t = false := by
    intro t
    have h0 : (0 : Fin 3) ∈ List.finRange 3 := List.mem_finRange 0
    apply List.all_eq_false.mpr
    refine ⟨0, h0, ?_⟩
    simp [hempty]
  have hloop : ∀ ps,
      generateCandidateLoop (fun t => sampleChecksB img t && geomTest t) ps = none := by
    intro ps
    induction ps with
    | nil => rfl
    | cons t rest ih =>
      simp [generateCandidateLoop, hchecks t, ih]
  have hdispatch : generateDispatch
      (fun k => generateCandidateLoop (fun t => sampleChecksB img t && geomTest t)
        (proposalsOf ((ck_preemptive_ransac_init_random_generators M seed).getD k (0, 0))))
      order = [] := by
    rw [generateDispatch_eq_filterMap]
    apply List.filterMap_eq_nil_iff.mpr
    intro k _
    exact hloop _
  simp only [runRelocaliser]
  rw [hdispatch]
  rfl

/-- C5 witness: a concrete frame with every prediction empty. -/
theorem C5_witness :
    (∀ idx, emptyPredImg.nbModes idx = 0) ∧
      runRelocaliser (fun _ => [witnessTriple]) emptyPredImg (fun _ => true) 42 8 [0, 1, 2] =
        Except.error RelocFail.emptyCandidatePool :=
  ⟨fun _ => rfl,
    C5_empty_predictions_give_empty_pool (fun _ => [witnessTriple]) emptyPredImg
      (fun _ => true) 42 8 [0, 1, 2] (fun _ => rfl)⟩

end Grove
